import Mathlib

/-!
Verification of the StashKu request family (DeleteRequest, PatchRequest,
PutRequest) — a shallow embedding of `src/requests/delete-request.js` and
`src/requests/patch-request.js` (which also contains the PutRequest class).

JavaScript values are embedded as the inductive `JSVal`; a request's
`metadata` object is an insertion-ordered association list of string keys,
matching the key-ordering semantics of plain JS objects; the `headers`
`Map` is an insertion-ordered association list of `JSVal` keys.  Object
and function identity (JS `===` on reference types) is tracked with a
numeric id on `vObj`, `vFilter` and `vFunc`; `vArr`, `vRecord`, `vMap`
and `vModel` values have no tracked identity and never compare `===`
(in the embedded code they are only ever produced as fresh literals).
-/

namespace StashKu

/-- A StashKu model class: its class `name`, the `$stashku` resource
configuration fields, and the names of its `pk: true` properties in
declaration order. -/
structure ModelType where
  name : String
  resource : Option String
  cfgName : Option String
  slug : Option String
  pluralName : Option String
  pluralSlug : Option String
  pkList : List String
deriving Repr, DecidableEq

/-- A JavaScript runtime value, as far as the request classes observe it. -/
inductive JSVal where
  | vNull
  | vUndef
  | vBool (b : Bool)
  | vNum (n : Int)
  | vStr (s : String)
  | vObj (id : Nat)
  | vArr (elems : List JSVal)
  | vRecord (entries : List (String × JSVal))
  | vMap (entries : List (JSVal × JSVal))
  | vFilter (id : Nat)
  | vFunc (id : Nat)
  | vModel (m : ModelType)

/-- JS `typeof`. A class (`vModel`) is a constructor function. -/
def jsTypeof : JSVal → String
  | .vNull => "object"
  | .vUndef => "undefined"
  | .vBool _ => "boolean"
  | .vNum _ => "number"
  | .vStr _ => "string"
  | .vObj _ => "object"
  | .vArr _ => "object"
  | .vRecord _ => "object"
  | .vMap _ => "object"
  | .vFilter _ => "object"
  | .vFunc _ => "function"
  | .vModel _ => "function"

/-- `Array.isArray`. -/
def jsIsArray : JSVal → Bool
  | .vArr _ => true
  | _ => false

/-- JS truthiness. -/
def truthy : JSVal → Bool
  | .vNull => false
  | .vUndef => false
  | .vBool b => b
  | .vNum n => n != 0
  | .vStr s => s != ""
  | _ => true

/-- JS strict equality `===`.  Reference types without a tracked identity
(`vArr`, `vRecord`, `vMap`, `vModel`) are fresh literals in every embedded
expression and therefore never `===`. -/
def jsEq : JSVal → JSVal → Bool
  | .vNull, .vNull => true
  | .vUndef, .vUndef => true
  | .vBool a, .vBool b => a == b
  | .vNum a, .vNum b => a == b
  | .vStr a, .vStr b => a == b
  | .vObj a, .vObj b => a == b
  | .vFilter a, .vFilter b => a == b
  | .vFunc a, .vFunc b => a == b
  | _, _ => false

/-- Property read on a plain JS object: first entry with the key wins
(JS objects have unique keys; insertion order is preserved). -/
def objGet : List (String × JSVal) → String → Option JSVal
  | [], _ => none
  | (k, v) :: rest, key => if k = key then some v else objGet rest key

/-- Property write on a plain JS object: update in place when the key
exists, append otherwise. -/
def objSet : List (String × JSVal) → String → JSVal → List (String × JSVal)
  | [], key, val => [(key, val)]
  | (k, v) :: rest, key, val =>
      if k = key then (k, val) :: rest else (k, v) :: objSet rest key val

/-- JS `delete obj[key]`. -/
def objDelete (l : List (String × JSVal)) (key : String) : List (String × JSVal) :=
  l.filter (fun kv => kv.1 ≠ key)

/-- `Object.assign(target, source)`: each source entry is written onto the
target in source order. -/
def objAssign (t s : List (String × JSVal)) : List (String × JSVal) :=
  s.foldl (fun acc kv => objSet acc kv.1 kv.2) t

/-- The `meta(null)` cleanup: keep exactly the entries whose key is in the
per-class `STANDARD_METADATA` list (every other key is `delete`d). -/
def filterStandard (std : List String) (md : List (String × JSVal)) :
    List (String × JSVal) :=
  md.filter (fun kv => std.contains kv.1)

/-- `Map.prototype.get`: first entry whose key is SameValueZero-equal. -/
def mapGet : List (JSVal × JSVal) → JSVal → Option JSVal
  | [], _ => none
  | (k, v) :: rest, key => if jsEq k key then some v else mapGet rest key

/-- `Map.prototype.set`: update the existing entry in place, else append. -/
def mapSet : List (JSVal × JSVal) → JSVal → JSVal → List (JSVal × JSVal)
  | [], key, val => [(key, val)]
  | (k, v) :: rest, key, val =>
      if jsEq k key then (k, val) :: rest else (k, v) :: mapSet rest key val

/-- `Map.prototype.delete`. -/
def mapDelete (l : List (JSVal × JSVal)) (key : JSVal) : List (JSVal × JSVal) :=
  l.filter (fun kv => !(jsEq kv.1 key))

/-- `Array.prototype.flat()` (depth 1), as used by `PutRequest.pk`. -/
def flat1 : List JSVal → List JSVal
  | [] => []
  | (JSVal.vArr xs) :: rest => xs ++ flat1 rest
  | v :: rest => v :: flat1 rest

/-- `Array.prototype.flat(Infinity)`, as used by `PutRequest.objects`. -/
def flattenDeep : List JSVal → List JSVal
  | [] => []
  | (JSVal.vArr xs) :: rest => flattenDeep xs ++ flattenDeep rest
  | v :: rest => v :: flattenDeep rest

/-- The `modelType` argument of `model(modelType)`: `null`, a valid model
class, or any other value (which `ModelUtility.isValidType` rejects). -/
inductive ModelArg where
  | aNull
  | aModel (m : ModelType)
  | aInvalid (v : JSVal)

/-- Modelled from the spec: `ModelUtility.isValidType`
(src/modeling/model-utility.js is not under src/); a value is a valid
model type exactly when it is a class / constructor object exposing the
model contract. -/
def ModelUtility.isValidType : ModelArg → Bool
  | .aModel _ => true
  | _ => false

/-- Modelled from the spec: English pluralization of a class name
(the `pluralize` library is not under src/), embedded as the regular
plural suffix form used by the repository's own tests
(`class TestModel` resolves to resource `TestModels`). -/
def StringUtility.plural (s : String) : String := s ++ "s"

/-- Modelled from the spec: `ModelUtility.resource` — §4.2
`resolveResourceName` precedence, `resource` → `name` → `slug` →
`plural.name` → `plural.slug` → pluralized class name.  The request-level
explicit-override argument of the spec's chain is omitted because the
`model()` call sites in src/ pass only the model type and the method. -/
def ModelUtility.resource (m : ModelType) : String :=
  m.resource.getD (m.cfgName.getD (m.slug.getD
    (m.pluralName.getD (m.pluralSlug.getD (StringUtility.plural m.name)))))

/-- Modelled from the spec: `ModelUtility.pk` — §4.2 `extractPrimaryKeys`
collects the names of the properties declared with `pk: true`, in
declaration order. -/
def ModelUtility.pk (m : ModelType) : List String := m.pkList

/-- The value a bound `modelType` argument stores into `metadata.model`. -/
def ModelArg.val : ModelArg → JSVal
  | .aNull => JSVal.vNull
  | .aModel m => JSVal.vModel m
  | .aInvalid v => v

/-- The `name` argument of `from(name)` / `to(name)`: `null`, a string, or
any other value (rejected). -/
inductive StrArg where
  | sNull
  | sStr (s : String)
  | sOther (v : JSVal)

/-- The `conditions` argument of `where(conditions)`, split the way the
method's type tests split it: `null`, a `Filter` instance (identified by
reference id), a callable (identified by reference id), or any other
value (rejected). -/
inductive WhereArg where
  | wNull
  | wFilter (f : Nat)
  | wCallback (g : Nat)
  | wOther (v : JSVal)

/-- The `dictionary` argument of `headers(dictionary)`: absent
(`undefined`), `null`, a `Map` (arbitrary JS keys), a plain object
(`Object.entries` yields string keys), or a non-object value (rejected). -/
inductive HeadersArg where
  | hNone
  | hNull
  | hMap (entries : List (JSVal × JSVal))
  | hObj (entries : List (String × JSVal))
  | hOther (v : JSVal)

/-- The shared `for (let [k, v] of iterable)` loop body of every
`headers()` method: a `null`/`undefined` key is skipped, a non-string key
aborts with the key error (entries already applied stay applied), a
`null`/`undefined` value deletes the key, any other value is stored. -/
def headersEntriesLoop : List (JSVal × JSVal) → List (JSVal × JSVal) →
    List (JSVal × JSVal) × Option String
  | hm, [] => (hm, none)
  | hm, (JSVal.vNull, _) :: rest => headersEntriesLoop hm rest
  | hm, (JSVal.vUndef, _) :: rest => headersEntriesLoop hm rest
  | hm, (JSVal.vStr s, JSVal.vNull) :: rest =>
      headersEntriesLoop (mapDelete hm (JSVal.vStr s)) rest
  | hm, (JSVal.vStr s, JSVal.vUndef) :: rest =>
      headersEntriesLoop (mapDelete hm (JSVal.vStr s)) rest
  | hm, (JSVal.vStr s, v) :: rest =>
      headersEntriesLoop (mapSet hm (JSVal.vStr s) v) rest
  | hm, (_, _) :: _ =>
      (hm, some "An invalid non-string key value was provided in the \"dictionary\" argument. Only string-based keys may be used.")

/-- Modelled from the spec: `Objects.fromEntries`
(src/utilities/objects.js is not under src/) — flattens the headers `Map`
to a plain key-value object; every stored header key is a string. -/
def Objects.fromEntries (es : List (JSVal × JSVal)) : List (String × JSVal) :=
  es.filterMap (fun kv =>
    match kv.1 with
    | JSVal.vStr s => some (s, kv.2)
    | _ => none)

/-- `metadata?.model?.name`: optional-chained property read used by
`toJSON()`.  A class's `name` is its class name; a plain object literal
may carry a `name` entry; every other value yields `undefined`. -/
def jsNameOf : JSVal → JSVal
  | .vModel m => JSVal.vStr m.name
  | .vRecord es => (objGet es "name").getD JSVal.vUndef
  | _ => JSVal.vUndef

/-- `Except` projection used to state fluent-chaining facts without a
hypothesis: the returned instance's id when the call succeeded, a default
when it threw. -/
def retId {α : Type} (f : α → Nat) (e : Except String α) (d : Nat) : Nat :=
  match e with
  | .ok a => f a
  | .error _ => d

/-- `Except` projection: observe a successful result, `none` on a throw. -/
def okMap {α β : Type} (e : Except String α) (f : α → β) : Option β :=
  match e with
  | .ok a => some (f a)
  | .error _ => none

/-- A StashKu DELETE request: an object identity plus its `metadata`
object (src/requests/delete-request.js). -/
structure DeleteRequest where
  objId : Nat
  metadata : List (String × JSVal)

/-- The `DeleteRequest` constructor's metadata object, in source order. -/
def DeleteRequest.defaultMetadata : List (String × JSVal) :=
  [("all", JSVal.vBool false), ("where", JSVal.vNull), ("from", JSVal.vNull),
   ("count", JSVal.vBool false), ("model", JSVal.vNull), ("headers", JSVal.vNull)]

/-- `new DeleteRequest()`. -/
def DeleteRequest.construct (id : Nat) : DeleteRequest :=
  ⟨id, DeleteRequest.defaultMetadata⟩

/-- The `method` getter. -/
def DeleteRequest.method (_ : DeleteRequest) : String := "delete"

/-- `DeleteRequest.from(name)`. -/
def DeleteRequest.fromName (r : DeleteRequest) (name : StrArg) :
    Except String DeleteRequest :=
  match name with
  | .sOther _ =>
      .error "Invalid \"name\" argument. The value must be a string or null."
  | .sNull => .ok { r with metadata := objSet r.metadata "from" JSVal.vNull }
  | .sStr s => .ok { r with metadata := objSet r.metadata "from" (JSVal.vStr s) }

/-- `DeleteRequest.model(modelType)`: throws on an invalid type, stores the
model, and — when non-null — unconditionally sets `from` to the
model-resolved resource name. -/
def DeleteRequest.model (r : DeleteRequest) (modelType : ModelArg) :
    Except String DeleteRequest :=
  match modelType with
  | .aInvalid _ =>
      .error "Invalid \"modelType\" argument. The value must be null, a class, or a constructor object"
  | .aNull => .ok { r with metadata := objSet r.metadata "model" JSVal.vNull }
  | .aModel m =>
      let r1 : DeleteRequest :=
        { r with metadata := objSet r.metadata "model" (JSVal.vModel m) }
      r1.fromName (.sStr (ModelUtility.resource m))

/-- `DeleteRequest.count(enabled)`: no argument (or `undefined`) enables,
otherwise the argument is coerced to boolean. -/
def DeleteRequest.count (r : DeleteRequest) (enabled : Option JSVal) :
    DeleteRequest :=
  match enabled with
  | none => { r with metadata := objSet r.metadata "count" (JSVal.vBool true) }
  | some JSVal.vUndef =>
      { r with metadata := objSet r.metadata "count" (JSVal.vBool true) }
  | some v =>
      { r with metadata := objSet r.metadata "count" (JSVal.vBool (truthy v)) }

/-- `DeleteRequest.all(enabled)`: `arguments.length === 0` enables,
otherwise the argument is coerced to boolean. -/
def DeleteRequest.all (r : DeleteRequest) (enabled : Option JSVal) :
    DeleteRequest :=
  match enabled with
  | none => { r with metadata := objSet r.metadata "all" (JSVal.vBool true) }
  | some v =>
      { r with metadata := objSet r.metadata "all" (JSVal.vBool (truthy v)) }

/-- `DeleteRequest.where(conditions)`.  `freshId` is the identity of the
`new Filter()` allocated in the callback branch; the returned list records
which callback was invoked and with which filter object. -/
def DeleteRequest.whereCond (r : DeleteRequest) (conditions : WhereArg)
    (freshId : Nat) : DeleteRequest × List (Nat × Nat) × Option String :=
  match conditions with
  | .wNull =>
      ({ r with metadata := objSet r.metadata "where" JSVal.vNull }, [], none)
  | .wFilter f =>
      ({ r with metadata := objSet r.metadata "where" (JSVal.vFilter f) }, [], none)
  | .wCallback g =>
      ({ r with metadata := objSet r.metadata "where" (JSVal.vFilter freshId) },
       [(g, freshId)], none)
  | .wOther _ =>
      (r, [],
       some "The \"conditions\" argument must be null, a callback, or a Filter instance.")

/-- `DeleteRequest.clear()`: resets `all`, `where`, `from` and `headers`
(the embedding always has a metadata object, so the falsy-metadata guard
is a no-op). -/
def DeleteRequest.clear (r : DeleteRequest) : DeleteRequest :=
  { r with metadata :=
      objSet (objSet (objSet (objSet r.metadata
        "all" (JSVal.vBool false)) "where" JSVal.vNull)
        "from" JSVal.vNull) "headers" JSVal.vNull }

/-- `DeleteRequest.headers(dictionary)`.  A falsy stored `headers` value is
first replaced by a fresh empty `Map` (this happens even on the paths that
throw); a non-`Map` truthy value there is unreachable through the header
methods and is not modelled.  The error, when any, is returned next to the
partially-updated request, matching the in-place Map mutation of the
source. -/
def DeleteRequest.headers (r : DeleteRequest) (dictionary : HeadersArg) :
    DeleteRequest × Option String :=
  let hm : List (JSVal × JSVal) :=
    match objGet r.metadata "headers" with
    | some (JSVal.vMap es) => es
    | _ => []
  match dictionary with
  | .hNull =>
      ({ r with metadata := objSet r.metadata "headers" (JSVal.vMap []) }, none)
  | .hMap es =>
      let res := headersEntriesLoop hm es
      ({ r with metadata := objSet r.metadata "headers" (JSVal.vMap res.1) }, res.2)
  | .hObj es =>
      let res := headersEntriesLoop hm
        (es.map (fun kv => (JSVal.vStr kv.1, kv.2)))
      ({ r with metadata := objSet r.metadata "headers" (JSVal.vMap res.1) }, res.2)
  | .hNone =>
      ({ r with metadata := objSet r.metadata "headers" (JSVal.vMap hm) },
       some "The \"dictionary\" argument must be null, a Map, or an object.")
  | .hOther _ =>
      ({ r with metadata := objSet r.metadata "headers" (JSVal.vMap hm) },
       some "The \"dictionary\" argument must be null, a Map, or an object.")

/-- `STANDARD_METADATA` of delete-request.js. -/
def DeleteRequest.standardMetadata : List String := ["all", "where", "from"]

/-- `DeleteRequest.meta(metadata)`: `null` deletes every metadata key not
in `STANDARD_METADATA`; otherwise any standard key in the argument throws
(the check precedes the merge) and the argument is `Object.assign`ed in.
The source interpolates the offending key into its message; the embedded
message drops the key name. -/
def DeleteRequest.meta (r : DeleteRequest)
    (metadata : Option (List (String × JSVal))) : Except String DeleteRequest :=
  match metadata with
  | none =>
      .ok { r with metadata := filterStandard DeleteRequest.standardMetadata r.metadata }
  | some md =>
      if md.any (fun kv => DeleteRequest.standardMetadata.contains kv.1) then
        .error "The metadata property is in use by a standard request method. Use the method to set this metadata should be used instead."
      else
        .ok { r with metadata := objAssign r.metadata md }

/-- `DeleteRequest.toJSON()`: clones the metadata, flattens a stored
headers `Map` to a plain object, reduces `model` to the optional-chained
`model?.name`, and records the method. -/
def DeleteRequest.toJSON (r : DeleteRequest) : List (String × JSVal) :=
  let metaClone := r.metadata
  let metaClone :=
    match objGet r.metadata "headers" with
    | some (JSVal.vMap es) =>
        objSet metaClone "headers" (JSVal.vRecord (Objects.fromEntries es))
    | _ => metaClone
  let metaClone :=
    objSet metaClone "model" (jsNameOf ((objGet r.metadata "model").getD JSVal.vUndef))
  objSet metaClone "method" (JSVal.vStr "delete")

/-- A StashKu PATCH request (src/requests/patch-request.js). -/
structure PatchRequest where
  objId : Nat
  metadata : List (String × JSVal)

/-- The `PatchRequest` constructor's metadata object, in source order. -/
def PatchRequest.defaultMetadata : List (String × JSVal) :=
  [("all", JSVal.vBool false), ("template", JSVal.vNull), ("where", JSVal.vNull),
   ("to", JSVal.vNull), ("count", JSVal.vBool false), ("model", JSVal.vNull),
   ("headers", JSVal.vNull)]

/-- `PatchRequest.template(template)`: throws on a non-object or an array,
clears on a falsy object value (`null`), stores the object otherwise. -/
def PatchRequest.template (r : PatchRequest) (tmpl : JSVal) :
    Except String PatchRequest :=
  if jsTypeof tmpl != "object" || jsIsArray tmpl then
    .error "Invalid \"template\" argument. The template value must be null or an object."
  else if truthy tmpl = false then
    .ok { r with metadata := objSet r.metadata "template" JSVal.vNull }
  else
    .ok { r with metadata := objSet r.metadata "template" tmpl }

/-- `new PatchRequest(template)`: a truthy `template` argument is routed
through `template()`, which may throw. -/
def PatchRequest.construct (id : Nat) (tmpl : JSVal) :
    Except String PatchRequest :=
  let base : PatchRequest := ⟨id, PatchRequest.defaultMetadata⟩
  if truthy tmpl then base.template tmpl else .ok base

/-- The `method` getter. -/
def PatchRequest.method (_ : PatchRequest) : String := "patch"

/-- `PatchRequest.to(name)`. -/
def PatchRequest.to (r : PatchRequest) (name : StrArg) :
    Except String PatchRequest :=
  match name with
  | .sNull => .ok { r with metadata := objSet r.metadata "to" JSVal.vNull }
  | .sOther _ =>
      .error "Invalid \"name\" argument. The value must be a string or null."
  | .sStr s => .ok { r with metadata := objSet r.metadata "to" (JSVal.vStr s) }

/-- `PatchRequest.model(modelType)`: stores the model and — when truthy —
unconditionally sets `to` to the model-resolved resource name. -/
def PatchRequest.model (r : PatchRequest) (modelType : ModelArg) :
    Except String PatchRequest :=
  match modelType with
  | .aInvalid _ =>
      .error "Invalid \"modelType\" argument. The value must be null, a class, or a constructor object"
  | .aNull => .ok { r with metadata := objSet r.metadata "model" JSVal.vNull }
  | .aModel m =>
      let r1 : PatchRequest :=
        { r with metadata := objSet r.metadata "model" (JSVal.vModel m) }
      r1.to (.sStr (ModelUtility.resource m))

/-- `PatchRequest.count(enabled)`. -/
def PatchRequest.count (r : PatchRequest) (enabled : Option JSVal) :
    PatchRequest :=
  match enabled with
  | none => { r with metadata := objSet r.metadata "count" (JSVal.vBool true) }
  | some JSVal.vUndef =>
      { r with metadata := objSet r.metadata "count" (JSVal.vBool true) }
  | some v =>
      { r with metadata := objSet r.metadata "count" (JSVal.vBool (truthy v)) }

/-- `PatchRequest.all(enabled)`. -/
def PatchRequest.all (r : PatchRequest) (enabled : Option JSVal) :
    PatchRequest :=
  match enabled with
  | none => { r with metadata := objSet r.metadata "all" (JSVal.vBool true) }
  | some v =>
      { r with metadata := objSet r.metadata "all" (JSVal.vBool (truthy v)) }

/-- `PatchRequest.where(conditions)`. -/
def PatchRequest.whereCond (r : PatchRequest) (conditions : WhereArg)
    (freshId : Nat) : PatchRequest × List (Nat × Nat) × Option String :=
  match conditions with
  | .wNull =>
      ({ r with metadata := objSet r.metadata "where" JSVal.vNull }, [], none)
  | .wFilter f =>
      ({ r with metadata := objSet r.metadata "where" (JSVal.vFilter f) }, [], none)
  | .wCallback g =>
      ({ r with metadata := objSet r.metadata "where" (JSVal.vFilter freshId) },
       [(g, freshId)], none)
  | .wOther _ =>
      (r, [],
       some "The \"conditions\" argument must be null, a callback, or a Filter instance.")

/-- `PatchRequest.clear()`: resets `template`, `where`, `to` and `headers`
(and, unlike `DeleteRequest.clear`, not `all`). -/
def PatchRequest.clear (r : PatchRequest) : PatchRequest :=
  { r with metadata :=
      objSet (objSet (objSet (objSet r.metadata
        "template" JSVal.vNull) "where" JSVal.vNull)
        "to" JSVal.vNull) "headers" JSVal.vNull }

/-- `PatchRequest.headers(dictionary)` — identical to the delete variant. -/
def PatchRequest.headers (r : PatchRequest) (dictionary : HeadersArg) :
    PatchRequest × Option String :=
  let hm : List (JSVal × JSVal) :=
    match objGet r.metadata "headers" with
    | some (JSVal.vMap es) => es
    | _ => []
  match dictionary with
  | .hNull =>
      ({ r with metadata := objSet r.metadata "headers" (JSVal.vMap []) }, none)
  | .hMap es =>
      let res := headersEntriesLoop hm es
      ({ r with metadata := objSet r.metadata "headers" (JSVal.vMap res.1) }, res.2)
  | .hObj es =>
      let res := headersEntriesLoop hm
        (es.map (fun kv => (JSVal.vStr kv.1, kv.2)))
      ({ r with metadata := objSet r.metadata "headers" (JSVal.vMap res.1) }, res.2)
  | .hNone =>
      ({ r with metadata := objSet r.metadata "headers" (JSVal.vMap hm) },
       some "The \"dictionary\" argument must be null, a Map, or an object.")
  | .hOther _ =>
      ({ r with metadata := objSet r.metadata "headers" (JSVal.vMap hm) },
       some "The \"dictionary\" argument must be null, a Map, or an object.")

/-- `STANDARD_METADATA` of the PatchRequest module. -/
def PatchRequest.standardMetadata : List String := ["template", "where", "to"]

/-- `PatchRequest.meta(metadata)`. -/
def PatchRequest.meta (r : PatchRequest)
    (metadata : Option (List (String × JSVal))) : Except String PatchRequest :=
  match metadata with
  | none =>
      .ok { r with metadata := filterStandard PatchRequest.standardMetadata r.metadata }
  | some md =>
      if md.any (fun kv => PatchRequest.standardMetadata.contains kv.1) then
        .error "The metadata property is in use by a standard request method. Use the method to set this metadata should be used instead."
      else
        .ok { r with metadata := objAssign r.metadata md }

/-- `PatchRequest.toJSON()`: like the delete variant, but the patch class
does not record a `method` key. -/
def PatchRequest.toJSON (r : PatchRequest) : List (String × JSVal) :=
  let metaClone := r.metadata
  let metaClone :=
    match objGet r.metadata "headers" with
    | some (JSVal.vMap es) =>
        objSet metaClone "headers" (JSVal.vRecord (Objects.fromEntries es))
    | _ => metaClone
  objSet metaClone "model" (jsNameOf ((objGet r.metadata "model").getD JSVal.vUndef))

/-- A StashKu PUT request (PutRequest class of src/requests/patch-request.js). -/
structure PutRequest where
  objId : Nat
  metadata : List (String × JSVal)

/-- The `PutRequest` constructor's metadata object, in source order. -/
def PutRequest.defaultMetadata : List (String × JSVal) :=
  [("pk", JSVal.vArr []), ("objects", JSVal.vArr []), ("to", JSVal.vNull),
   ("count", JSVal.vBool false), ("model", JSVal.vNull), ("headers", JSVal.vNull)]

/-- The `for (let k of primaryKeys)` loop of `PutRequest.pk`: a non-null,
non-string entry aborts with the argument error (keys already pushed
stay); a truthy string not yet present is appended. -/
def pkLoop : List JSVal → List JSVal → List JSVal × Option String
  | acc, [] => (acc, none)
  | acc, JSVal.vNull :: rest => pkLoop acc rest
  | acc, JSVal.vStr s :: rest =>
      if s = "" then pkLoop acc rest
      else if acc.any (fun x => jsEq x (JSVal.vStr s)) then pkLoop acc rest
      else pkLoop (acc ++ [JSVal.vStr s]) rest
  | acc, _ :: _ =>
      (acc, some "Invalid \"primaryKeys\" argument. The array contains a non-string value.")

/-- `PutRequest.pk(...primaryKeys)`: a lone `null` clears; otherwise the
spread is flattened one level and fed to the loop.  The rest parameter is
never falsy, so the `!primaryKeys` guard of the source cannot fire. -/
def PutRequest.pk (r : PutRequest) (primaryKeys : List JSVal) :
    PutRequest × Option String :=
  let cur : List JSVal :=
    match objGet r.metadata "pk" with
    | some (JSVal.vArr ks) => ks
    | _ => []
  match primaryKeys with
  | [JSVal.vNull] =>
      ({ r with metadata := objSet r.metadata "pk" (JSVal.vArr []) }, none)
  | ks =>
      let res := pkLoop cur (flat1 ks)
      ({ r with metadata := objSet r.metadata "pk" (JSVal.vArr res.1) }, res.2)

/-- The `for (let o of objects)` loop of `PutRequest.objects`: `null` and
`undefined` entries are skipped, a non-object entry aborts with the
argument error (objects already pushed stay), and an entry already present
by `===` (`indexOf`) is skipped. -/
def objectsLoop : List JSVal → List JSVal → List JSVal × Option String
  | acc, [] => (acc, none)
  | acc, JSVal.vNull :: rest => objectsLoop acc rest
  | acc, JSVal.vUndef :: rest => objectsLoop acc rest
  | acc, o :: rest =>
      if jsTypeof o != "object" then
        (acc, some "Invalid \"objects\" argument. Values must be an object.")
      else if acc.any (fun x => jsEq x o) then objectsLoop acc rest
      else objectsLoop (acc ++ [o]) rest

/-- `PutRequest.objects(...objects)`: a lone `null` clears; otherwise the
spread is flattened with `flat(Infinity)` and fed to the loop. -/
def PutRequest.objects (r : PutRequest) (objectsArg : List JSVal) :
    PutRequest × Option String :=
  let cur : List JSVal :=
    match objGet r.metadata "objects" with
    | some (JSVal.vArr os) => os
    | _ => []
  match objectsArg with
  | [JSVal.vNull] =>
      ({ r with metadata := objSet r.metadata "objects" (JSVal.vArr []) }, none)
  | os =>
      let res := objectsLoop cur (flattenDeep os)
      ({ r with metadata := objSet r.metadata "objects" (JSVal.vArr res.1) }, res.2)

/-- `new PutRequest(pk, ...objects)`: an array `pk` argument is routed
through `pk()`; a throw there aborts the constructor before `objects()`
runs. -/
def PutRequest.construct (id : Nat) (pkArg : JSVal) (objs : List JSVal) :
    PutRequest × Option String :=
  let base : PutRequest := ⟨id, PutRequest.defaultMetadata⟩
  let step1 : PutRequest × Option String :=
    match pkArg with
    | JSVal.vArr ks => base.pk ks
    | _ => (base, none)
  match step1.2 with
  | some e => (step1.1, some e)
  | none => step1.1.objects objs

/-- The `method` getter. -/
def PutRequest.method (_ : PutRequest) : String := "put"

/-- `PutRequest.to(name)`. -/
def PutRequest.to (r : PutRequest) (name : StrArg) : Except String PutRequest :=
  match name with
  | .sOther _ =>
      .error "Invalid \"name\" argument. The value must be a string or null."
  | .sNull => .ok { r with metadata := objSet r.metadata "to" JSVal.vNull }
  | .sStr s => .ok { r with metadata := objSet r.metadata "to" (JSVal.vStr s) }

/-- `PutRequest.model(modelType)`: stores the model and — when truthy —
chains `.to(resource).pk(null).pk(...ModelUtility.pk(modelType))`, so the
primary-key list is always cleared and recomputed from the model. -/
def PutRequest.model (r : PutRequest) (modelType : ModelArg) :
    Except String PutRequest :=
  match modelType with
  | .aInvalid _ =>
      .error "Invalid \"modelType\" argument. The value must be null, a class, or a constructor object"
  | .aNull => .ok { r with metadata := objSet r.metadata "model" JSVal.vNull }
  | .aModel m =>
      let r1 : PutRequest :=
        { r with metadata := objSet r.metadata "model" (JSVal.vModel m) }
      match r1.to (.sStr (ModelUtility.resource m)) with
      | .error e => .error e
      | .ok r2 =>
          let step1 := r2.pk [JSVal.vNull]
          match step1.2 with
          | some e => .error e
          | none =>
              let step2 := step1.1.pk ((ModelUtility.pk m).map JSVal.vStr)
              match step2.2 with
              | some e => .error e
              | none => .ok step2.1

/-- `PutRequest.count(enabled)`. -/
def PutRequest.count (r : PutRequest) (enabled : Option JSVal) : PutRequest :=
  match enabled with
  | none => { r with metadata := objSet r.metadata "count" (JSVal.vBool true) }
  | some JSVal.vUndef =>
      { r with metadata := objSet r.metadata "count" (JSVal.vBool true) }
  | some v =>
      { r with metadata := objSet r.metadata "count" (JSVal.vBool (truthy v)) }

/-- `PutRequest.clear()`: resets `pk`, `objects`, `to` and `headers`. -/
def PutRequest.clear (r : PutRequest) : PutRequest :=
  { r with metadata :=
      objSet (objSet (objSet (objSet r.metadata
        "pk" (JSVal.vArr [])) "objects" (JSVal.vArr []))
        "to" JSVal.vNull) "headers" JSVal.vNull }

/-- `PutRequest.headers(dictionary)` — identical to the delete variant. -/
def PutRequest.headers (r : PutRequest) (dictionary : HeadersArg) :
    PutRequest × Option String :=
  let hm : List (JSVal × JSVal) :=
    match objGet r.metadata "headers" with
    | some (JSVal.vMap es) => es
    | _ => []
  match dictionary with
  | .hNull =>
      ({ r with metadata := objSet r.metadata "headers" (JSVal.vMap []) }, none)
  | .hMap es =>
      let res := headersEntriesLoop hm es
      ({ r with metadata := objSet r.metadata "headers" (JSVal.vMap res.1) }, res.2)
  | .hObj es =>
      let res := headersEntriesLoop hm
        (es.map (fun kv => (JSVal.vStr kv.1, kv.2)))
      ({ r with metadata := objSet r.metadata "headers" (JSVal.vMap res.1) }, res.2)
  | .hNone =>
      ({ r with metadata := objSet r.metadata "headers" (JSVal.vMap hm) },
       some "The \"dictionary\" argument must be null, a Map, or an object.")
  | .hOther _ =>
      ({ r with metadata := objSet r.metadata "headers" (JSVal.vMap hm) },
       some "The \"dictionary\" argument must be null, a Map, or an object.")

/-- `STANDARD_METADATA` of the PutRequest module. -/
def PutRequest.standardMetadata : List String :=
  ["pk", "objects", "to", "count", "model"]

/-- `PutRequest.meta(metadata)`. -/
def PutRequest.meta (r : PutRequest)
    (metadata : Option (List (String × JSVal))) : Except String PutRequest :=
  match metadata with
  | none =>
      .ok { r with metadata := filterStandard PutRequest.standardMetadata r.metadata }
  | some md =>
      if md.any (fun kv => PutRequest.standardMetadata.contains kv.1) then
        .error "The metadata property is in use by a standard request method. Use the method to set this metadata should be used instead."
      else
        .ok { r with metadata := objAssign r.metadata md }

/-- `PutRequest.toJSON()`. -/
def PutRequest.toJSON (r : PutRequest) : List (String × JSVal) :=
  let metaClone := r.metadata
  let metaClone :=
    match objGet r.metadata "headers" with
    | some (JSVal.vMap es) =>
        objSet metaClone "headers" (JSVal.vRecord (Objects.fromEntries es))
    | _ => metaClone
  let metaClone :=
    objSet metaClone "model" (jsNameOf ((objGet r.metadata "model").getD JSVal.vUndef))
  objSet metaClone "method" (JSVal.vStr "put")

/-- Is a value `null` or `undefined`? -/
def isNullish : JSVal → Bool
  | .vNull => true
  | .vUndef => true
  | _ => false

/-- A headers-dictionary key that makes the shared entry loop throw:
neither a string (storable) nor `null`/`undefined` (skipped). -/
def headersBadKey : JSVal → Bool
  | .vNull => false
  | .vUndef => false
  | .vStr _ => false
  | _ => true

/-- A `PutRequest.objects` entry that makes the loop throw: a non-null,
non-undefined value whose `typeof` is not `object`. -/
def objectsBadEntry : JSVal → Bool
  | .vNull => false
  | .vUndef => false
  | o => jsTypeof o != "object"

/-- Pairwise `===`-distinctness: the shape of the `objects` array that the
`indexOf` deduplication maintains. -/
def jsNodup (l : List JSVal) : Prop :=
  l.Pairwise (fun a b => jsEq a b = false)

/-- The `metadata.objects` array of a PUT request (empty when the slot is
not an array, matching the defensive reset in the source). -/
def PutRequest.storedObjects (r : PutRequest) : List JSVal :=
  match objGet r.metadata "objects" with
  | some (JSVal.vArr os) => os
  | _ => []

/-- The `metadata.pk` array of a PUT request. -/
def PutRequest.storedPk (r : PutRequest) : List JSVal :=
  match objGet r.metadata "pk" with
  | some (JSVal.vArr ks) => ks
  | _ => []

theorem objGet_objSet (md : List (String × JSVal)) (k k' : String) (v : JSVal) :
    objGet (objSet md k v) k' = if k' = k then some v else objGet md k' := by
  induction md with
  | nil =>
      by_cases h : k' = k
      · subst h; simp [objGet, objSet]
      · simp [objGet, objSet, h, Ne.symm h]
  | cons hd tl ih =>
      obtain ⟨k0, v0⟩ := hd
      by_cases h0 : k0 = k <;> by_cases h1 : k' = k <;> by_cases h2 : k0 = k' <;>
        simp_all [objGet, objSet]

theorem objGet_append (l1 l2 : List (String × JSVal)) (k : String) :
    objGet (l1 ++ l2) k = (objGet l1 k).elim (objGet l2 k) some := by
  induction l1 with
  | nil => simp [objGet]
  | cons hd tl ih =>
      obtain ⟨k0, v0⟩ := hd
      by_cases h : k0 = k <;> simp [objGet, h, ih]

theorem objGet_filterStandard (std : List String) (md : List (String × JSVal))
    (k : String) :
    objGet (filterStandard std md) k =
      if std.contains k then objGet md k else none := by
  induction md with
  | nil => simp [filterStandard, objGet]
  | cons hd tl ih =>
      obtain ⟨k0, v0⟩ := hd
      by_cases hc : std.contains k0 <;> by_cases hk : k0 = k <;>
        simp_all [filterStandard, List.filter_cons, objGet]

theorem jsEq_vStr_left {k : JSVal} {s : String} (h : jsEq k (JSVal.vStr s) = true) :
    k = JSVal.vStr s := by
  cases k <;> simp_all [jsEq]

theorem mapGet_mapSet (m : List (JSVal × JSVal)) (s t : String) (v : JSVal) :
    mapGet (mapSet m (JSVal.vStr s) v) (JSVal.vStr t) =
      if t = s then some v else mapGet m (JSVal.vStr t) := by
  induction m with
  | nil =>
      by_cases h : t = s
      · subst h; simp [mapGet, mapSet, jsEq]
      · simp [mapGet, mapSet, jsEq, h, Ne.symm h]
  | cons hd tl ih =>
      obtain ⟨k0, v0⟩ := hd
      by_cases h0 : jsEq k0 (JSVal.vStr s) = true
      · have hk0 : k0 = JSVal.vStr s := jsEq_vStr_left h0
        subst hk0
        by_cases h1 : t = s
        · subst h1; simp [mapGet, mapSet, jsEq]
        · simp [mapGet, mapSet, jsEq, h1, Ne.symm h1]
      · rw [mapSet, if_neg h0]
        by_cases h1 : jsEq k0 (JSVal.vStr t) = true
        · have hk0 : k0 = JSVal.vStr t := jsEq_vStr_left h1
          subst hk0
          have hts : ¬ t = s := by
            intro h; subst h; simp [jsEq] at h0
          simp [mapGet, jsEq, hts]
        · simp [mapGet, h1, ih]

theorem mapDelete_cons (k0 v0 : JSVal) (tl : List (JSVal × JSVal)) (key : JSVal) :
    mapDelete ((k0, v0) :: tl) key =
      if jsEq k0 key then mapDelete tl key else (k0, v0) :: mapDelete tl key := by
  by_cases h : jsEq k0 key = true <;> simp [mapDelete, List.filter_cons, h]

theorem mapGet_mapDelete (m : List (JSVal × JSVal)) (s t : String) :
    mapGet (mapDelete m (JSVal.vStr s)) (JSVal.vStr t) =
      if t = s then none else mapGet m (JSVal.vStr t) := by
  induction m with
  | nil => simp [mapGet, mapDelete]
  | cons hd tl ih =>
      obtain ⟨k0, v0⟩ := hd
      rw [mapDelete_cons]
      by_cases h0 : jsEq k0 (JSVal.vStr s) = true
      · rw [if_pos h0]
        have hk0 : k0 = JSVal.vStr s := jsEq_vStr_left h0
        subst hk0
        by_cases h1 : t = s
        · subst h1; simp [mapGet, ih]
        · simp [mapGet, jsEq, h1, Ne.symm h1, ih]
      · rw [if_neg h0]
        simp only [mapGet]
        by_cases h1 : jsEq k0 (JSVal.vStr t) = true
        · have hk0 : k0 = JSVal.vStr t := jsEq_vStr_left h1
          subst hk0
          have hts : ¬ t = s := by
            intro h; subst h; simp [jsEq] at h0
          simp [jsEq, hts]
        · simp [h1, ih]

theorem headersEntriesLoop_obj_err (es : List (String × JSVal))
    (hm : List (JSVal × JSVal)) :
    (headersEntriesLoop hm (es.map (fun kv => (JSVal.vStr kv.1, kv.2)))).2 = none := by
  induction es generalizing hm with
  | nil => simp [headersEntriesLoop]
  | cons hd tl ih =>
      obtain ⟨s, v⟩ := hd
      cases v <;> simp [headersEntriesLoop, ih]

theorem headersEntriesLoop_obj_get (es : List (String × JSVal))
    (hm : List (JSVal × JSVal)) (t : String) :
    mapGet (headersEntriesLoop hm (es.map (fun kv => (JSVal.vStr kv.1, kv.2)))).1
        (JSVal.vStr t) =
      (objGet es.reverse t).elim (mapGet hm (JSVal.vStr t))
        (fun v => if isNullish v then none else some v) := by
  induction es generalizing hm with
  | nil => simp [headersEntriesLoop, objGet]
  | cons hd tl ih =>
      obtain ⟨s, v⟩ := hd
      rw [List.reverse_cons, objGet_append]
      cases hrev : objGet tl.reverse t with
      | some w =>
          cases v <;>
            simp [headersEntriesLoop, ih, hrev]
      | none =>
          by_cases hts : t = s
          · subst hts
            cases v <;>
              simp [headersEntriesLoop, ih, hrev, objGet, isNullish,
                mapGet_mapDelete, mapGet_mapSet]
          · cases v <;>
              simp [headersEntriesLoop, ih, hrev, objGet, Ne.symm hts, hts,
                mapGet_mapDelete, mapGet_mapSet]

theorem headersEntriesLoop_err_iff (es : List (JSVal × JSVal))
    (hm : List (JSVal × JSVal)) :
    (headersEntriesLoop hm es).2.isSome = es.any (fun kv => headersBadKey kv.1) := by
  induction es generalizing hm with
  | nil => simp [headersEntriesLoop]
  | cons hd tl ih =>
      obtain ⟨k, v⟩ := hd
      cases k <;> cases v <;> simp [headersEntriesLoop, headersBadKey, ih]

theorem headersEntriesLoop_skip_nullish (es1 es2 : List (JSVal × JSVal))
    (hm : List (JSVal × JSVal)) (k v : JSVal) (hk : isNullish k = true) :
    headersEntriesLoop hm (es1 ++ (k, v) :: es2) =
      headersEntriesLoop hm (es1 ++ es2) := by
  induction es1 generalizing hm with
  | nil =>
      cases k <;> simp_all [isNullish, headersEntriesLoop]
  | cons hd tl ih =>
      obtain ⟨k0, v0⟩ := hd
      cases k0 <;> cases v0 <;> simp [headersEntriesLoop, ih]

theorem flat1_map_vStr (l : List String) :
    flat1 (l.map JSVal.vStr) = l.map JSVal.vStr := by
  induction l with
  | nil => simp [flat1]
  | cons hd tl ih => simp [flat1, ih]

theorem pkLoop_strings (names : List String) (acc : List JSVal)
    (hne : ∀ s ∈ names, s ≠ "")
    (hdisj : ∀ s ∈ names, acc.any (fun x => jsEq x (JSVal.vStr s)) = false)
    (hnd : names.Nodup) :
    pkLoop acc (names.map JSVal.vStr) = (acc ++ names.map JSVal.vStr, none) := by
  induction names generalizing acc with
  | nil => simp [pkLoop]
  | cons s rest ih =>
      have hs : s ≠ "" := hne s (List.mem_cons_self s rest)
      have hacc : acc.any (fun x => jsEq x (JSVal.vStr s)) = false :=
        hdisj s (List.mem_cons_self s rest)
      have hrest : ∀ u ∈ rest, (acc ++ [JSVal.vStr s]).any
          (fun x => jsEq x (JSVal.vStr u)) = false := by
        intro u hu
        have h1 : acc.any (fun x => jsEq x (JSVal.vStr u)) = false :=
          hdisj u (List.mem_cons_of_mem s hu)
        have hsu : s ≠ u := by
          intro h; subst h
          exact (List.nodup_cons.mp hnd).1 hu
        rw [List.any_append, h1, Bool.false_or]
        simp [jsEq, hsu]
      have := ih (acc ++ [JSVal.vStr s])
        (fun u hu => hne u (List.mem_cons_of_mem s hu)) hrest
        (List.nodup_cons.mp hnd).2
      simp [pkLoop, hs, hacc, this]

theorem objectsLoop_err_iff (es acc : List JSVal) :
    (objectsLoop acc es).2.isSome = es.any objectsBadEntry := by
  induction es generalizing acc with
  | nil => simp [objectsLoop]
  | cons o rest ih =>
      cases o <;>
        simp [objectsLoop, objectsBadEntry, jsTypeof, ih] <;>
        split <;> simp [ih]

theorem jsNodup_append_singleton (acc : List JSVal) (o : JSVal)
    (hnd : jsNodup acc) (hany : acc.any (fun x => jsEq x o) = false) :
    jsNodup (acc ++ [o]) := by
  refine List.pairwise_append.mpr ⟨hnd, List.pairwise_singleton _ _, ?_⟩
  intro a ha b hb
  rw [List.mem_singleton] at hb
  subst hb
  rw [List.any_eq_false] at hany
  exact Bool.eq_false_iff.mpr (hany a ha)

theorem objectsLoop_nodup (es acc : List JSVal) (h : jsNodup acc) :
    jsNodup (objectsLoop acc es).1 := by
  induction es generalizing acc with
  | nil => simpa [objectsLoop] using h
  | cons o rest ih =>
      cases o <;>
        first
          | simpa [objectsLoop] using ih acc h
          | simpa [objectsLoop, jsTypeof] using h
          | (simp only [objectsLoop, jsTypeof, bne_self_eq_false,
               Bool.false_eq_true, if_false]
             split
             · exact ih _ h
             · rename_i hany
               refine ih _ (jsNodup_append_singleton _ _ h ?_)
               simpa using hany)

/-- A concrete model class in the shape of the repository's generated
`BaseThemeModel`, with the explicit `resource` configuration
`"resource-abc"` used by the repository's own model-binding test. -/
def themeApiModel : ModelType :=
  { name := "BaseThemeModel", resource := some "resource-abc", cfgName := none,
    slug := none, pluralName := none, pluralSlug := none, pkList := ["ID"] }

/-- Claim C1: evaluation at the failing input.  A PatchRequest whose
resource name was explicitly set to `"someresource"` before binding has it
overwritten with the model-resolved name `"resource-abc"` by `model()`
(and likewise a DeleteRequest's `from`): the `model()` methods call
`from`/`to` unconditionally, while the claim — together with the methods'
own doc comment ("*not already defined*") and the repository's test, which
expects `"someresource"` to survive binding — requires the explicitly set
name to be preserved. -/
theorem model_overwrites_explicit_resource_name :
    (okMap (((PatchRequest.construct 1 JSVal.vUndef).bind
        (fun r => r.to (StrArg.sStr "someresource"))).bind
        (fun r => r.model (ModelArg.aModel themeApiModel)))
      (fun r => objGet r.metadata "to") = some (some (JSVal.vStr "resource-abc")))
    ∧ (okMap (((DeleteRequest.construct 2).fromName
        (StrArg.sStr "someresource")).bind
        (fun r => r.model (ModelArg.aModel themeApiModel)))
      (fun r => objGet r.metadata "from") = some (some (JSVal.vStr "resource-abc"))) := by
  exact ⟨rfl, rfl⟩

/-- Claim C2 counterexample: `clear()` does not return the shared `count`
flag to its constructor default — a DeleteRequest with `count()` enabled
still has `metadata.count = true` after `clear()`, while the constructor
default is `false`. -/
theorem clear_leaves_count_enabled :
    objGet (((DeleteRequest.construct 0).count none).clear).metadata "count"
        = some (JSVal.vBool true)
    ∧ objGet (DeleteRequest.construct 0).metadata "count"
        = some (JSVal.vBool false) := by
  exact ⟨rfl, rfl⟩

/-- Claim C2 (amended): `clear()` resets the kind-specific fields and the
headers to their constructor defaults — DeleteRequest: `all`, `where`,
`from`, `headers`; PatchRequest: `template`, `where`, `to`, `headers`;
PutRequest: `pk`, `objects`, `to`, `headers` — and preserves the object
identity and type, but the shared fields `count` and `model` (and, on
PatchRequest, `all`) keep their current values instead of returning to
their defaults. -/
theorem clear_resets_kind_specific_fields :
    (∀ r : DeleteRequest,
      objGet r.clear.metadata "all" = some (JSVal.vBool false) ∧
      objGet r.clear.metadata "where" = some JSVal.vNull ∧
      objGet r.clear.metadata "from" = some JSVal.vNull ∧
      objGet r.clear.metadata "headers" = some JSVal.vNull ∧
      objGet r.clear.metadata "count" = objGet r.metadata "count" ∧
      objGet r.clear.metadata "model" = objGet r.metadata "model" ∧
      r.clear.objId = r.objId)
    ∧ (∀ r : PatchRequest,
      objGet r.clear.metadata "template" = some JSVal.vNull ∧
      objGet r.clear.metadata "where" = some JSVal.vNull ∧
      objGet r.clear.metadata "to" = some JSVal.vNull ∧
      objGet r.clear.metadata "headers" = some JSVal.vNull ∧
      objGet r.clear.metadata "all" = objGet r.metadata "all" ∧
      objGet r.clear.metadata "count" = objGet r.metadata "count" ∧
      objGet r.clear.metadata "model" = objGet r.metadata "model" ∧
      r.clear.objId = r.objId)
    ∧ (∀ r : PutRequest,
      objGet r.clear.metadata "pk" = some (JSVal.vArr []) ∧
      objGet r.clear.metadata "objects" = some (JSVal.vArr []) ∧
      objGet r.clear.metadata "to" = some JSVal.vNull ∧
      objGet r.clear.metadata "headers" = some JSVal.vNull ∧
      objGet r.clear.metadata "count" = objGet r.metadata "count" ∧
      objGet r.clear.metadata "model" = objGet r.metadata "model" ∧
      r.clear.objId = r.objId) := by
  refine ⟨fun r => ?_, fun r => ?_, fun r => ?_⟩ <;>
    simp [DeleteRequest.clear, PatchRequest.clear, PutRequest.clear, objGet_objSet]

/-- Claim C3 counterexample: `headers()` given a `Map` containing an entry
with the non-string key `null` raises no error — the entry is silently
skipped and nothing is stored — contradicting the claim's "an entry whose
key is not a string raises a key-kind error". -/
theorem headers_null_key_raises_no_error :
    ((DeleteRequest.construct 0).headers
        (HeadersArg.hMap [(JSVal.vNull, JSVal.vBool true)])).2 = none
    ∧ objGet ((DeleteRequest.construct 0).headers
        (HeadersArg.hMap [(JSVal.vNull, JSVal.vBool true)])).1.metadata "headers"
        = some (JSVal.vMap []) := by
  exact ⟨rfl, rfl⟩

/-- The `metadata.headers` map of a DELETE request, with the source's
falsy-to-fresh-`Map` normalization. -/
def DeleteRequest.storedHeaders (r : DeleteRequest) : List (JSVal × JSVal) :=
  match objGet r.metadata "headers" with
  | some (JSVal.vMap es) => es
  | _ => []

/-- The `metadata.headers` map of a PATCH request. -/
def PatchRequest.storedHeaders (r : PatchRequest) : List (JSVal × JSVal) :=
  match objGet r.metadata "headers" with
  | some (JSVal.vMap es) => es
  | _ => []

/-- The `metadata.headers` map of a PUT request. -/
def PutRequest.storedHeaders (r : PutRequest) : List (JSVal × JSVal) :=
  match objGet r.metadata "headers" with
  | some (JSVal.vMap es) => es
  | _ => []

/-- Claim C3 (amended): for every request, `headers(dictionary)` merges a
plain-object dictionary into the existing header map — for every key the
resulting lookup is the dictionary's last entry for that key (a `null` /
`undefined` value there deletes the key) and otherwise the previous map's
value; `headers(null)` empties the map and raises nothing; an entry whose
key is neither `null` nor `undefined` (which are skipped) and not a string
raises a key-kind error, and the call errs exactly when such an entry is
present; and `headers()` with no argument at all raises an argument-kind
error. -/
theorem headers_merge_clear_and_errors :
    (∀ (r : DeleteRequest) (es : List (String × JSVal)) (t : String),
      (r.headers (HeadersArg.hObj es)).2 = none ∧
      mapGet ((r.headers (HeadersArg.hObj es)).1.storedHeaders) (JSVal.vStr t) =
        (objGet es.reverse t).elim (mapGet r.storedHeaders (JSVal.vStr t))
          (fun v => if isNullish v then none else some v))
    ∧ (∀ r : DeleteRequest,
      (r.headers HeadersArg.hNull).2 = none ∧
      (r.headers HeadersArg.hNull).1.storedHeaders = [])
    ∧ (∀ (r : DeleteRequest) (ems : List (JSVal × JSVal)),
      ((r.headers (HeadersArg.hMap ems)).2).isSome =
        ems.any (fun kv => headersBadKey kv.1))
    ∧ (∀ r : DeleteRequest, ((r.headers HeadersArg.hNone).2).isSome = true)
    ∧ (∀ (r : PatchRequest) (es : List (String × JSVal)) (t : String),
      (r.headers (HeadersArg.hObj es)).2 = none ∧
      mapGet ((r.headers (HeadersArg.hObj es)).1.storedHeaders) (JSVal.vStr t) =
        (objGet es.reverse t).elim (mapGet r.storedHeaders (JSVal.vStr t))
          (fun v => if isNullish v then none else some v))
    ∧ (∀ r : PatchRequest,
      (r.headers HeadersArg.hNull).2 = none ∧
      (r.headers HeadersArg.hNull).1.storedHeaders = [])
    ∧ (∀ (r : PatchRequest) (ems : List (JSVal × JSVal)),
      ((r.headers (HeadersArg.hMap ems)).2).isSome =
        ems.any (fun kv => headersBadKey kv.1))
    ∧ (∀ r : PatchRequest, ((r.headers HeadersArg.hNone).2).isSome = true)
    ∧ (∀ (r : PutRequest) (es : List (String × JSVal)) (t : String),
      (r.headers (HeadersArg.hObj es)).2 = none ∧
      mapGet ((r.headers (HeadersArg.hObj es)).1.storedHeaders) (JSVal.vStr t) =
        (objGet es.reverse t).elim (mapGet r.storedHeaders (JSVal.vStr t))
          (fun v => if isNullish v then none else some v))
    ∧ (∀ r : PutRequest,
      (r.headers HeadersArg.hNull).2 = none ∧
      (r.headers HeadersArg.hNull).1.storedHeaders = [])
    ∧ (∀ (r : PutRequest) (ems : List (JSVal × JSVal)),
      ((r.headers (HeadersArg.hMap ems)).2).isSome =
        ems.any (fun kv => headersBadKey kv.1))
    ∧ (∀ r : PutRequest, ((r.headers HeadersArg.hNone).2).isSome = true) := by
  refine ⟨fun r es t => ⟨headersEntriesLoop_obj_err es _, ?_⟩,
          fun r => ⟨rfl, ?_⟩, fun r ems => headersEntriesLoop_err_iff ems _,
          fun r => rfl,
          fun r es t => ⟨headersEntriesLoop_obj_err es _, ?_⟩,
          fun r => ⟨rfl, ?_⟩, fun r ems => headersEntriesLoop_err_iff ems _,
          fun r => rfl,
          fun r es t => ⟨headersEntriesLoop_obj_err es _, ?_⟩,
          fun r => ⟨rfl, ?_⟩, fun r ems => headersEntriesLoop_err_iff ems _,
          fun r => rfl⟩
  · have h1 : ((r.headers (HeadersArg.hObj es)).1).storedHeaders
        = (headersEntriesLoop r.storedHeaders
            (es.map (fun kv => (JSVal.vStr kv.1, kv.2)))).1 := by
      simp [DeleteRequest.headers, DeleteRequest.storedHeaders, objGet_objSet]
    rw [h1]
    exact headersEntriesLoop_obj_get es _ t
  · simp [DeleteRequest.headers, DeleteRequest.storedHeaders, objGet_objSet]
  · have h1 : ((r.headers (HeadersArg.hObj es)).1).storedHeaders
        = (headersEntriesLoop r.storedHeaders
            (es.map (fun kv => (JSVal.vStr kv.1, kv.2)))).1 := by
      simp [PatchRequest.headers, PatchRequest.storedHeaders, objGet_objSet]
    rw [h1]
    exact headersEntriesLoop_obj_get es _ t
  · simp [PatchRequest.headers, PatchRequest.storedHeaders, objGet_objSet]
  · have h1 : ((r.headers (HeadersArg.hObj es)).1).storedHeaders
        = (headersEntriesLoop r.storedHeaders
            (es.map (fun kv => (JSVal.vStr kv.1, kv.2)))).1 := by
      simp [PutRequest.headers, PutRequest.storedHeaders, objGet_objSet]
    rw [h1]
    exact headersEntriesLoop_obj_get es _ t
  · simp [PutRequest.headers, PutRequest.storedHeaders, objGet_objSet]

/-- Claim C10: a `Map` entry with a `null` or `undefined` key is silently
skipped by `headers()` — the whole call (resulting request state and error
alike) is identical to the call without that entry, so nothing is stored,
deleted or raised for it while every other entry is still applied. -/
theorem headers_skips_nullish_map_keys :
    (∀ (r : DeleteRequest) (es1 es2 : List (JSVal × JSVal)) (v : JSVal),
      r.headers (HeadersArg.hMap (es1 ++ (JSVal.vNull, v) :: es2))
        = r.headers (HeadersArg.hMap (es1 ++ es2)) ∧
      r.headers (HeadersArg.hMap (es1 ++ (JSVal.vUndef, v) :: es2))
        = r.headers (HeadersArg.hMap (es1 ++ es2)))
    ∧ (∀ (r : PatchRequest) (es1 es2 : List (JSVal × JSVal)) (v : JSVal),
      r.headers (HeadersArg.hMap (es1 ++ (JSVal.vNull, v) :: es2))
        = r.headers (HeadersArg.hMap (es1 ++ es2)) ∧
      r.headers (HeadersArg.hMap (es1 ++ (JSVal.vUndef, v) :: es2))
        = r.headers (HeadersArg.hMap (es1 ++ es2)))
    ∧ (∀ (r : PutRequest) (es1 es2 : List (JSVal × JSVal)) (v : JSVal),
      r.headers (HeadersArg.hMap (es1 ++ (JSVal.vNull, v) :: es2))
        = r.headers (HeadersArg.hMap (es1 ++ es2)) ∧
      r.headers (HeadersArg.hMap (es1 ++ (JSVal.vUndef, v) :: es2))
        = r.headers (HeadersArg.hMap (es1 ++ es2))) := by
  refine ⟨fun r es1 es2 v => ⟨?_, ?_⟩, fun r es1 es2 v => ⟨?_, ?_⟩,
          fun r es1 es2 v => ⟨?_, ?_⟩⟩ <;>
    simp only [DeleteRequest.headers, PatchRequest.headers, PutRequest.headers] <;>
    first
      | rw [headersEntriesLoop_skip_nullish es1 es2 _ JSVal.vNull v rfl]
      | rw [headersEntriesLoop_skip_nullish es1 es2 _ JSVal.vUndef v rfl]

/-- Claim C6: for every request with a `where` setter, `null` clears the
stored filter; a pre-built `Filter` instance is stored as that very
reference; a callable is invoked immediately with the freshly allocated
`Filter` builder, which is what gets stored; and any other value raises an
argument-kind error while leaving the request (and so the stored filter)
unchanged. -/
theorem where_null_filter_callback_semantics :
    (∀ (r : DeleteRequest) (fid : Nat),
      objGet ((r.whereCond WhereArg.wNull fid).1).metadata "where" = some JSVal.vNull ∧
      (r.whereCond WhereArg.wNull fid).2.2 = none)
    ∧ (∀ (r : DeleteRequest) (f fid : Nat),
      objGet ((r.whereCond (WhereArg.wFilter f) fid).1).metadata "where"
        = some (JSVal.vFilter f) ∧
      (r.whereCond (WhereArg.wFilter f) fid).2.2 = none)
    ∧ (∀ (r : DeleteRequest) (g fid : Nat),
      objGet ((r.whereCond (WhereArg.wCallback g) fid).1).metadata "where"
        = some (JSVal.vFilter fid) ∧
      (r.whereCond (WhereArg.wCallback g) fid).2.1 = [(g, fid)] ∧
      (r.whereCond (WhereArg.wCallback g) fid).2.2 = none)
    ∧ (∀ (r : DeleteRequest) (v : JSVal) (fid : Nat),
      (r.whereCond (WhereArg.wOther v) fid).1 = r ∧
      ((r.whereCond (WhereArg.wOther v) fid).2.2).isSome = true)
    ∧ (∀ (r : PatchRequest) (fid : Nat),
      objGet ((r.whereCond WhereArg.wNull fid).1).metadata "where" = some JSVal.vNull ∧
      (r.whereCond WhereArg.wNull fid).2.2 = none)
    ∧ (∀ (r : PatchRequest) (f fid : Nat),
      objGet ((r.whereCond (WhereArg.wFilter f) fid).1).metadata "where"
        = some (JSVal.vFilter f) ∧
      (r.whereCond (WhereArg.wFilter f) fid).2.2 = none)
    ∧ (∀ (r : PatchRequest) (g fid : Nat),
      objGet ((r.whereCond (WhereArg.wCallback g) fid).1).metadata "where"
        = some (JSVal.vFilter fid) ∧
      (r.whereCond (WhereArg.wCallback g) fid).2.1 = [(g, fid)] ∧
      (r.whereCond (WhereArg.wCallback g) fid).2.2 = none)
    ∧ (∀ (r : PatchRequest) (v : JSVal) (fid : Nat),
      (r.whereCond (WhereArg.wOther v) fid).1 = r ∧
      ((r.whereCond (WhereArg.wOther v) fid).2.2).isSome = true) := by
  refine ⟨fun r fid => ⟨?_, rfl⟩, fun r f fid => ⟨?_, rfl⟩,
          fun r g fid => ⟨?_, rfl, rfl⟩, fun r v fid => ⟨rfl, rfl⟩,
          fun r fid => ⟨?_, rfl⟩, fun r f fid => ⟨?_, rfl⟩,
          fun r g fid => ⟨?_, rfl, rfl⟩, fun r v fid => ⟨rfl, rfl⟩⟩ <;>
    simp [DeleteRequest.whereCond, PatchRequest.whereCond, objGet_objSet]

/-- Claim C9: the deprecated `meta()` guards only the per-class
`STANDARD_METADATA` list (`all`/`where`/`from` on DeleteRequest,
`template`/`where`/`to` on PatchRequest): `meta(null)` deletes every other
metadata entry — including the shared `count`, `model` and `headers`
fields, and `all` on PatchRequest — while the standard entries survive,
and `meta` with a `count`, `model` (or, on Patch, `all`) entry does not
throw and silently overwrites that shared field. -/
theorem meta_guards_only_standard_metadata :
    (∀ r : DeleteRequest,
      okMap (r.meta none) (fun q => objGet q.metadata "count") = some none ∧
      okMap (r.meta none) (fun q => objGet q.metadata "model") = some none ∧
      okMap (r.meta none) (fun q => objGet q.metadata "headers") = some none ∧
      okMap (r.meta none) (fun q => objGet q.metadata "all")
        = some (objGet r.metadata "all") ∧
      okMap (r.meta none) (fun q => objGet q.metadata "where")
        = some (objGet r.metadata "where") ∧
      okMap (r.meta none) (fun q => objGet q.metadata "from")
        = some (objGet r.metadata "from"))
    ∧ (∀ (r : DeleteRequest) (v : JSVal),
      okMap (r.meta (some [("count", v)])) (fun q => objGet q.metadata "count")
        = some (some v) ∧
      okMap (r.meta (some [("model", v)])) (fun q => objGet q.metadata "model")
        = some (some v))
    ∧ (∀ r : PatchRequest,
      okMap (r.meta none) (fun q => objGet q.metadata "count") = some none ∧
      okMap (r.meta none) (fun q => objGet q.metadata "model") = some none ∧
      okMap (r.meta none) (fun q => objGet q.metadata "headers") = some none ∧
      okMap (r.meta none) (fun q => objGet q.metadata "all") = some none ∧
      okMap (r.meta none) (fun q => objGet q.metadata "template")
        = some (objGet r.metadata "template") ∧
      okMap (r.meta none) (fun q => objGet q.metadata "where")
        = some (objGet r.metadata "where") ∧
      okMap (r.meta none) (fun q => objGet q.metadata "to")
        = some (objGet r.metadata "to"))
    ∧ (∀ (r : PatchRequest) (v : JSVal),
      okMap (r.meta (some [("count", v)])) (fun q => objGet q.metadata "count")
        = some (some v) ∧
      okMap (r.meta (some [("model", v)])) (fun q => objGet q.metadata "model")
        = some (some v) ∧
      okMap (r.meta (some [("all", v)])) (fun q => objGet q.metadata "all")
        = some (some v)) := by
  refine ⟨fun r => ?_, fun r v => ?_, fun r => ?_, fun r v => ?_⟩ <;>
    simp [DeleteRequest.meta, PatchRequest.meta, okMap, objGet_filterStandard,
      DeleteRequest.standardMetadata, PatchRequest.standardMetadata,
      objAssign, objGet_objSet]

/-- Claim C7: `toJSON()` emits the request metadata with a stored headers
`Map` flattened to a plain key-value object and the `model` field reduced
to the bound model type's name string — `undefined` when no model is bound
— never the model itself. -/
theorem toJSON_flattens_headers_and_model :
    (∀ (r : DeleteRequest) (es : List (JSVal × JSVal)) (m : ModelType),
      (objGet r.metadata "headers" = some (JSVal.vMap es) →
        objGet r.toJSON "headers" = some (JSVal.vRecord (Objects.fromEntries es))) ∧
      (objGet r.metadata "model" = some (JSVal.vModel m) →
        objGet r.toJSON "model" = some (JSVal.vStr m.name)) ∧
      (objGet r.metadata "model" = some JSVal.vNull →
        objGet r.toJSON "model" = some JSVal.vUndef))
    ∧ (∀ (r : PatchRequest) (es : List (JSVal × JSVal)) (m : ModelType),
      (objGet r.metadata "headers" = some (JSVal.vMap es) →
        objGet r.toJSON "headers" = some (JSVal.vRecord (Objects.fromEntries es))) ∧
      (objGet r.metadata "model" = some (JSVal.vModel m) →
        objGet r.toJSON "model" = some (JSVal.vStr m.name)) ∧
      (objGet r.metadata "model" = some JSVal.vNull →
        objGet r.toJSON "model" = some JSVal.vUndef))
    ∧ (∀ (r : PutRequest) (es : List (JSVal × JSVal)) (m : ModelType),
      (objGet r.metadata "headers" = some (JSVal.vMap es) →
        objGet r.toJSON "headers" = some (JSVal.vRecord (Objects.fromEntries es))) ∧
      (objGet r.metadata "model" = some (JSVal.vModel m) →
        objGet r.toJSON "model" = some (JSVal.vStr m.name)) ∧
      (objGet r.metadata "model" = some JSVal.vNull →
        objGet r.toJSON "model" = some JSVal.vUndef)) := by
  refine ⟨fun r es m => ⟨fun h => ?_, fun h => ?_, fun h => ?_⟩,
          fun r es m => ⟨fun h => ?_, fun h => ?_, fun h => ?_⟩,
          fun r es m => ⟨fun h => ?_, fun h => ?_, fun h => ?_⟩⟩ <;>
    simp [DeleteRequest.toJSON, PatchRequest.toJSON, PutRequest.toJSON, h,
      objGet_objSet, jsNameOf]

/-- A DELETE request with a bound model and one header, used to evaluate
`toJSON()` on a concrete state. -/
def jsonDemoRequest : DeleteRequest :=
  ⟨4, [("all", JSVal.vBool false), ("where", JSVal.vNull),
       ("from", JSVal.vStr "themes"), ("count", JSVal.vBool false),
       ("model", JSVal.vModel themeApiModel),
       ("headers", JSVal.vMap [(JSVal.vStr "hello", JSVal.vStr "world")])]⟩

/-- Claim C7 witness: concrete evaluation — the headers Map flattens to the
plain object and the model reduces to its class-name string. -/
theorem toJSON_flattens_headers_and_model_witness :
    objGet jsonDemoRequest.toJSON "headers"
        = some (JSVal.vRecord [("hello", JSVal.vStr "world")])
    ∧ objGet jsonDemoRequest.toJSON "model" = some (JSVal.vStr "BaseThemeModel") :=
  ⟨(toJSON_flattens_headers_and_model.1 jsonDemoRequest
      [(JSVal.vStr "hello", JSVal.vStr "world")] themeApiModel).1 rfl,
   (toJSON_flattens_headers_and_model.1 jsonDemoRequest
      [(JSVal.vStr "hello", JSVal.vStr "world")] themeApiModel).2.1 rfl⟩

theorem storedObjects_objects (r : PutRequest) (es : List JSVal) :
    ((r.objects es).1).storedObjects
      = match es with
        | [JSVal.vNull] => []
        | os => (objectsLoop r.storedObjects (flattenDeep os)).1 := by
  have hstep : ∀ (L : List JSVal),
      ((⟨r.objId, objSet r.metadata "objects" (JSVal.vArr L)⟩ :
        PutRequest)).storedObjects = L := by
    intro L
    simp [PutRequest.storedObjects, objGet_objSet]
  rcases es with _ | ⟨e, rest⟩
  · exact hstep _
  · cases e <;> first
      | exact hstep _
      | (rcases rest with _ | ⟨e2, rest2⟩ <;> exact hstep _)

theorem storedObjects_pk (r : PutRequest) (ks : List JSVal) :
    ((r.pk ks).1).storedObjects = r.storedObjects := by
  have hstep : ∀ (L : List JSVal),
      ((⟨r.objId, objSet r.metadata "pk" (JSVal.vArr L)⟩ :
        PutRequest)).storedObjects = r.storedObjects := by
    intro L
    simp [PutRequest.storedObjects, objGet_objSet]
  rcases ks with _ | ⟨e, rest⟩
  · exact hstep _
  · cases e <;> first
      | exact hstep _
      | (rcases rest with _ | ⟨e2, rest2⟩ <;> exact hstep _)

theorem put_objects_preserves_nodup (r : PutRequest) (es : List JSVal)
    (h : jsNodup r.storedObjects) :
    jsNodup (((r.objects es).1).storedObjects) := by
  rw [storedObjects_objects]
  rcases es with _ | ⟨e, rest⟩
  · exact objectsLoop_nodup _ _ h
  · cases e <;> first
      | exact objectsLoop_nodup _ _ h
      | (rcases rest with _ | ⟨e2, rest2⟩
         · exact List.Pairwise.nil
         · exact objectsLoop_nodup _ _ h)

/-- Claim C4: `PutRequest.objects(...)` raises its argument error exactly
when a (flattened) supplied entry is a non-null, non-undefined value whose
`typeof` is not `object`; the stored `metadata.objects` array stays
`===`-duplicate-free across any call (silent deduplication by reference,
within one call and across calls), and it is duplicate-free from
construction. -/
theorem put_objects_error_and_dedup :
    (∀ (r : PutRequest) (es : List JSVal),
      ((r.objects es).2).isSome = (flattenDeep es).any objectsBadEntry)
    ∧ (∀ (r : PutRequest) (es : List JSVal),
      jsNodup r.storedObjects → jsNodup (((r.objects es).1).storedObjects))
    ∧ (∀ (id : Nat) (pkArg : JSVal) (objs : List JSVal),
      jsNodup (((PutRequest.construct id pkArg objs).1).storedObjects)) := by
  refine ⟨fun r es => ?_, put_objects_preserves_nodup, fun id pkArg objs => ?_⟩
  · rcases es with _ | ⟨e, rest⟩
    · exact objectsLoop_err_iff _ _
    · cases e <;> first
        | exact objectsLoop_err_iff _ _
        | (rcases rest with _ | ⟨e2, rest2⟩
           · simp [PutRequest.objects, flattenDeep, objectsBadEntry]
           · exact objectsLoop_err_iff _ _)
  · have hbase : jsNodup ((⟨id, PutRequest.defaultMetadata⟩ :
        PutRequest)).storedObjects := List.Pairwise.nil
    cases pkArg <;> first
      | exact put_objects_preserves_nodup _ _ hbase
      | (rename_i ks
         show jsNodup ((match ((⟨id, PutRequest.defaultMetadata⟩ :
             PutRequest).pk ks).2 with
           | some e => (((⟨id, PutRequest.defaultMetadata⟩ :
               PutRequest).pk ks).1, some e)
           | none => (((⟨id, PutRequest.defaultMetadata⟩ :
               PutRequest).pk ks).1).objects objs).1).storedObjects
         cases ((⟨id, PutRequest.defaultMetadata⟩ : PutRequest).pk ks).2 with
         | some e =>
             rw [storedObjects_pk]
             exact hbase
         | none =>
             refine put_objects_preserves_nodup _ _ ?_
             rw [storedObjects_pk]
             exact hbase)

/-- Claim C4 witness: supplying the same object reference twice in one
call to `objects()` on a fresh PUT request keeps the stored array
duplicate-free — and concretely stores the object exactly once. -/
theorem put_objects_dedup_witness :
    jsNodup (((((PutRequest.construct 11 JSVal.vUndef []).1).objects
        [JSVal.vObj 1, JSVal.vObj 1]).1).storedObjects)
    ∧ (((((PutRequest.construct 11 JSVal.vUndef []).1).objects
        [JSVal.vObj 1, JSVal.vObj 1]).1).storedObjects) = [JSVal.vObj 1] :=
  ⟨put_objects_error_and_dedup.2.1 ((PutRequest.construct 11 JSVal.vUndef []).1)
      [JSVal.vObj 1, JSVal.vObj 1]
      (put_objects_error_and_dedup.2.2 11 JSVal.vUndef []),
   by
    rw [storedObjects_objects]
    simp [PutRequest.construct, PutRequest.objects, PutRequest.storedObjects,
      PutRequest.pk, PutRequest.defaultMetadata, flattenDeep, objectsLoop,
      objGet, objSet, jsTypeof, jsEq]⟩

/-- Claim C5: binding a valid model to a PUT request replaces the entire
primary-key list with exactly the model's declared pk properties — the pk
list is first cleared and then repopulated from the model, so whatever pk
configuration existed before binding is discarded, for every prior request
state. -/
theorem put_model_recomputes_pk (r : PutRequest) (m : ModelType)
    (hne : ∀ s ∈ m.pkList, s ≠ "") (hnd : m.pkList.Nodup) :
    okMap (r.model (ModelArg.aModel m)) PutRequest.storedPk
      = some (m.pkList.map JSVal.vStr) := by
  cases hm : m.pkList with
  | nil =>
      simp [PutRequest.model, PutRequest.to, PutRequest.pk, ModelUtility.pk, hm,
        objGet_objSet, okMap, PutRequest.storedPk, flat1, pkLoop]
  | cons s rest =>
      have hne' : ∀ u ∈ s :: rest, u ≠ "" := by rw [← hm]; exact hne
      have hnd' : (s :: rest).Nodup := by rw [← hm]; exact hnd
      have hflat : flat1 (JSVal.vStr s :: List.map JSVal.vStr rest)
          = JSVal.vStr s :: List.map JSVal.vStr rest := by
        simpa using flat1_map_vStr (s :: rest)
      have hloop : pkLoop [] (JSVal.vStr s :: List.map JSVal.vStr rest)
          = (JSVal.vStr s :: List.map JSVal.vStr rest, none) := by
        simpa using pkLoop_strings (s :: rest) [] hne' (fun u _ => rfl) hnd'
      simp [PutRequest.model, PutRequest.to, PutRequest.pk, ModelUtility.pk, hm,
        objGet_objSet, okMap, PutRequest.storedPk, hflat, hloop]

/-- Claim C5 witness: binding the theme model (single declared pk `ID`) to
a fresh PUT request yields exactly `["ID"]` as the pk list. -/
theorem put_model_recomputes_pk_witness :
    okMap (((PutRequest.construct 9 JSVal.vUndef []).1).model
        (ModelArg.aModel themeApiModel)) PutRequest.storedPk
      = some [JSVal.vStr "ID"] :=
  put_model_recomputes_pk _ themeApiModel (by decide) (by decide)

theorem put_pk_objId (r : PutRequest) (ks : List JSVal) :
    ((r.pk ks).1).objId = r.objId := by
  rcases ks with _ | ⟨e, rest⟩
  · rfl
  · cases e <;> first
      | rfl
      | (rcases rest with _ | ⟨e2, rest2⟩ <;> rfl)

theorem put_objects_objId (r : PutRequest) (os : List JSVal) :
    ((r.objects os).1).objId = r.objId := by
  rcases os with _ | ⟨e, rest⟩
  · rfl
  · cases e <;> first
      | rfl
      | (rcases rest with _ | ⟨e2, rest2⟩ <;> rfl)

/-- Claim C8: every builder method of every request type returns the very
request instance it was invoked on whenever it does not throw — stated as:
the returned object identity always equals the receiver's (on the throwing
paths the `retId` projection falls back to the receiver's id, so the
equation is exactly fluent chaining on the non-throwing paths). -/
theorem builder_methods_return_receiver :
    (∀ (r : DeleteRequest) (a : ModelArg),
      retId DeleteRequest.objId (r.model a) r.objId = r.objId)
    ∧ (∀ (r : DeleteRequest) (a : Option JSVal), (r.count a).objId = r.objId)
    ∧ (∀ (r : DeleteRequest) (a : Option JSVal), (r.all a).objId = r.objId)
    ∧ (∀ (r : DeleteRequest) (c : WhereArg) (fid : Nat),
      ((r.whereCond c fid).1).objId = r.objId)
    ∧ (∀ (r : DeleteRequest) (a : StrArg),
      retId DeleteRequest.objId (r.fromName a) r.objId = r.objId)
    ∧ (∀ (r : DeleteRequest) (d : HeadersArg), ((r.headers d).1).objId = r.objId)
    ∧ (∀ (r : DeleteRequest) (a : Option (List (String × JSVal))),
      retId DeleteRequest.objId (r.meta a) r.objId = r.objId)
    ∧ (∀ r : DeleteRequest, r.clear.objId = r.objId)
    ∧ (∀ (r : PatchRequest) (a : ModelArg),
      retId PatchRequest.objId (r.model a) r.objId = r.objId)
    ∧ (∀ (r : PatchRequest) (a : Option JSVal), (r.count a).objId = r.objId)
    ∧ (∀ (r : PatchRequest) (a : Option JSVal), (r.all a).objId = r.objId)
    ∧ (∀ (r : PatchRequest) (t : JSVal),
      retId PatchRequest.objId (r.template t) r.objId = r.objId)
    ∧ (∀ (r : PatchRequest) (c : WhereArg) (fid : Nat),
      ((r.whereCond c fid).1).objId = r.objId)
    ∧ (∀ (r : PatchRequest) (a : StrArg),
      retId PatchRequest.objId (r.to a) r.objId = r.objId)
    ∧ (∀ (r : PatchRequest) (d : HeadersArg), ((r.headers d).1).objId = r.objId)
    ∧ (∀ (r : PatchRequest) (a : Option (List (String × JSVal))),
      retId PatchRequest.objId (r.meta a) r.objId = r.objId)
    ∧ (∀ r : PatchRequest, r.clear.objId = r.objId)
    ∧ (∀ (r : PutRequest) (a : ModelArg),
      retId PutRequest.objId (r.model a) r.objId = r.objId)
    ∧ (∀ (r : PutRequest) (a : Option JSVal), (r.count a).objId = r.objId)
    ∧ (∀ (r : PutRequest) (ks : List JSVal), ((r.pk ks).1).objId = r.objId)
    ∧ (∀ (r : PutRequest) (os : List JSVal), ((r.objects os).1).objId = r.objId)
    ∧ (∀ (r : PutRequest) (a : StrArg),
      retId PutRequest.objId (r.to a) r.objId = r.objId)
    ∧ (∀ (r : PutRequest) (d : HeadersArg), ((r.headers d).1).objId = r.objId)
    ∧ (∀ (r : PutRequest) (a : Option (List (String × JSVal))),
      retId PutRequest.objId (r.meta a) r.objId = r.objId)
    ∧ (∀ r : PutRequest, r.clear.objId = r.objId) := by
  refine ⟨fun r a => ?_, fun r a => ?_, fun r a => ?_, fun r c fid => ?_,
          fun r a => ?_, fun r d => ?_, fun r a => ?_, fun r => rfl,
          fun r a => ?_, fun r a => ?_, fun r a => ?_, fun r t => ?_,
          fun r c fid => ?_, fun r a => ?_, fun r d => ?_, fun r a => ?_,
          fun r => rfl,
          fun r a => ?_, fun r a => ?_, put_pk_objId, put_objects_objId,
          fun r a => ?_, fun r d => ?_, fun r a => ?_, fun r => rfl⟩
  · cases a <;> rfl
  · rcases a with _ | v
    · rfl
    · cases v <;> rfl
  · rcases a with _ | v <;> rfl
  · cases c <;> rfl
  · cases a <;> rfl
  · cases d <;> rfl
  · rcases a with _ | md
    · rfl
    · simp only [DeleteRequest.meta]
      split <;> rfl
  · cases a <;> rfl
  · rcases a with _ | v
    · rfl
    · cases v <;> rfl
  · rcases a with _ | v <;> rfl
  · simp only [PatchRequest.template]
    split
    · rfl
    · split <;> rfl
  · cases c <;> rfl
  · cases a <;> rfl
  · cases d <;> rfl
  · rcases a with _ | md
    · rfl
    · simp only [PatchRequest.meta]
      split <;> rfl
  · cases a with
    | aInvalid v => rfl
    | aNull => rfl
    | aModel m =>
        simp only [PutRequest.model, PutRequest.to, PutRequest.pk]
        split <;> first
          | rfl
          | (split <;> rfl)
  · rcases a with _ | v
    · rfl
    · cases v <;> rfl
  · cases a <;> rfl
  · cases d <;> rfl
  · rcases a with _ | md
    · rfl
    · simp only [PutRequest.meta]
      split <;> rfl

end StashKu
